import Mathlib

/- Verification of the `export` package (api.go): a virtual path-addressed
filesystem adapter over a pluggable object-storage backend. The backend
itself (the `driver`, `model`, `stream` packages) is an external
collaborator; it is embedded here as a record of optional capabilities over
an abstract backend state. -/

namespace Export

/-- A cleaned absolute slash-separated virtual path, represented by its list
of segments; `[]` stands for the filesystem root `/`. Every path the adapter
handles is absolute and cleaned (`filepath.Join` cleans its result), so the
segment representation is faithful to the string one. -/
abbrev Path := List String

/-- `filepath.Dir` on a cleaned absolute path: drop the last segment;
`Dir "/" = "/"` is `dirOf [] = []`. (`filepath.Dir` returns `.` only for
relative paths, which never occur here, so the source's `p == "."`
re-normalisation is vacuous.) -/
def dirOf (p : Path) : Path := p.dropLast

/-- `filepath.Base` on a cleaned absolute path: the last segment, `/` for
the root. -/
def baseOf (p : Path) : String := p.getLastD "/"

/-- `filepath.Join` of an absolute directory and a further path. -/
def joinPath (p q : Path) : Path := p ++ q

/-- `const baseDir = "/juicefs"` (api.go line 23). -/
def baseDir : Path := ["juicefs"]

/-- `const RootName = "root"` (api.go line 24). -/
def RootName : String := "root"

/-- The concrete metadata record `model.Object`. -/
structure ObjData where
  id : String := ""
  path : Path := []
  name : String := ""
  size : Int := 0
  modified : Int := 0
  ctime : Int := 0
  isFolder : Bool := false
deriving DecidableEq, Repr

/-- A backend object descriptor (`model.Obj`): either a plain
`model.Object` or a `model.ObjWrapName` wrapper overriding the display
name. -/
inductive Obj where
  | mk (data : ObjData)
  | wrapName (name : String) (inner : Obj)
deriving DecidableEq, Repr

/-- Display name of a descriptor (`Obj.GetName`). -/
def Obj.GetName : Obj → String
  | .mk d => d.name
  | .wrapName n _ => n

/-- Directory flag of a descriptor (`Obj.IsDir`); the wrapper delegates. -/
def Obj.IsDir : Obj → Bool
  | .mk d => d.isFolder
  | .wrapName _ inner => inner.IsDir

/-- Native path of a descriptor (`Obj.GetPath`); the wrapper delegates. -/
def Obj.GetPath : Obj → Path
  | .mk d => d.path
  | .wrapName _ inner => inner.GetPath

/-- Modelled from the spec: `model.WrapObjName` (the `model` package is not
under `src/`) wraps a descriptor to attach its normalized display name; the
display-name mapping is the identity here, so the wrapper carries the inner
descriptor's own name. -/
def WrapObjName (o : Obj) : Obj := .wrapName o.GetName o

/-- Modelled from the spec: `model.WrapObjsName` wraps every entry of a
listing for display. -/
def WrapObjsName (os : List Obj) : List Obj := os.map WrapObjName

/-- Modelled from the spec: `model.UnwrapObj` removes one wrapper layer. -/
def UnwrapObj : Obj → Obj
  | .wrapName _ inner => inner
  | o => o

/-- The error taxonomy of the source. Error wrapping
(`errors.WithMessage`, `errors.WithStack`, `errors.Wrapf`) preserves the
wrapped cause for `errs.IsObjectNotFound`, so wrapping is modelled as the
identity. `outOfFuel` is the marker the embedding returns when the source's
recursion exceeds the modelled call depth; the Go code has no such value, so
a result of `outOfFuel` at every depth means the Go recursion does not
terminate. `backend c` is an opaque backend-native failure. -/
inductive Err where
  | objectNotFound
  | notImplement
  | notFile
  | notFolder
  | rootConfig
  | outOfFuel
  | backend (code : Nat)
deriving DecidableEq, Repr

/-- Decidable equality of results, so concrete runs can be checked by
`decide`. -/
instance {ε α : Type} [DecidableEq ε] [DecidableEq α] :
    DecidableEq (Except ε α) := fun a b =>
  match a, b with
  | .ok x, .ok y =>
    if h : x = y then .isTrue (by rw [h]) else
      .isFalse (by intro hc; cases hc; exact h rfl)
  | .error x, .error y =>
    if h : x = y then .isTrue (by rw [h]) else
      .isFalse (by intro hc; cases hc; exact h rfl)
  | .ok _, .error _ => .isFalse (by intro hc; cases hc)
  | .error _, .ok _ => .isFalse (by intro hc; cases hc)

/-- `errs.IsObjectNotFound` on the embedded taxonomy. -/
def IsObjectNotFound : Err → Bool
  | .objectNotFound => true
  | _ => false

/-- The part of `stream.FileStream` the core uses on the write path: the
synthetic descriptor plus the byte content supplied by the caller. -/
structure FileStream where
  obj : ObjData
  data : List Nat
deriving DecidableEq, Repr

/-- Modelled from the spec: a backend transfer link (`Storage.Link`; the
`internal/stream` and `pkg/http_range` collaborators are not under `src/`).
Per the spec a link grants a seekable byte stream over the located object,
modelled as the object's bytes. -/
structure Link where
  data : List Nat
deriving DecidableEq, Repr

/-- Modelled from the spec: the byte-range view `[off, off+limit)` of the
seekable stream built from a transfer link. -/
def rangeRead (bs : List Nat) (off limit : Int) : List Nat :=
  (bs.drop off.toNat).take limit.toNat

/-- The backend capability set: `driver.Driver` plus the optional
interfaces the source dispatches on via type switches and type assertions
(`driver.Getter`, `driver.GetRooter`, `driver.IRootId`, `driver.IRootPath`,
`driver.Remove`, `driver.PutResult`, `driver.Put`, `driver.MkdirResult`,
`driver.Mkdir`). `σ` is the backend's own state; read-only operations take
the state, mutating ones return the updated state. A `none` field means the
backend does not implement that optional interface. `getRoot?` may return
`Except.ok none`, matching a Go `GetRoot` that returns a nil object with a
nil error. -/
structure Driver (σ : Type) where
  get? : Option (σ → Path → Except Err Obj)
  getRoot? : Option (σ → Except Err (Option Obj))
  rootId? : Option String
  rootPath? : Option Path
  storageModified : Int
  list : σ → Obj → Except Err (List Obj)
  link : σ → Obj → Except Err Link
  remove? : Option (σ → Obj → Except Err σ)
  putResult? : Option (σ → Obj → FileStream → Except Err (Obj × σ))
  put? : Option (σ → Obj → FileStream → Except Err σ)
  mkdirResult? : Option (σ → Obj → String → Except Err (Obj × σ))
  mkdir? : Option (σ → Obj → String → Except Err σ)

variable {σ : Type}

/-- The root-resolution branch of `get` (api.go lines 154-192), reached when
the (possibly rewritten) path equals `/`: use `GetRooter` if implemented
(its failure is fatal), else synthesize a directory descriptor from a
declared root ID, else from a declared root path, else fail with the
configuration error `please implement IRootPath or IRootId or GetRooter
method`; the result is wrapped with the fixed display name `root`. -/
def rootGet (d : Driver σ) (s : σ) : Except Err Obj :=
  let rootObjRes : Except Err (Option Obj) :=
    match d.getRoot? with
    | some gr =>
      match gr s with
      | .error e => .error e
      | .ok o => .ok o
    | none =>
      match d.rootId? with
      | some rid =>
        .ok (some (.mk { id := rid, name := RootName, size := 0,
                         modified := d.storageModified, isFolder := true }))
      | none =>
        match d.rootPath? with
        | some rp =>
          .ok (some (.mk { path := rp, name := RootName, size := 0,
                           modified := d.storageModified, isFolder := true }))
        | none => .error .rootConfig
  match rootObjRes with
  | .error e => .error e
  | .ok none => .error .rootConfig
  | .ok (some rootObj) => .ok (.wrapName RootName rootObj)

mutual

/-- `(*Impl).get` (api.go lines 142-210). `fuel` bounds the modelled call
depth; a result of `Err.outOfFuel` at every fuel means the source recursion
diverges. When the backend implements `driver.Getter` the source first
rewrites `path` (`path = filepath.Join(baseDir, path)` unless `path`
already equals `baseDir`), tries the direct getter on the rewritten path,
and on any getter error falls through to the general parent-list-and-scan
resolution with the rewritten path still in effect. -/
def getF (d : Driver σ) (fuel : Nat) (s : σ) (path : Path) : Except Err Obj :=
  match fuel with
  | 0 => .error .outOfFuel
  | fuel + 1 =>
    let pathDirect : Path × Option (Except Err Obj) :=
      match d.get? with
      | some g =>
        let p := if path = baseDir then path else joinPath baseDir path
        (p, some (g s p))
      | none => (path, none)
    match pathDirect.2 with
    | some (.ok obj) => .ok (WrapObjName obj)
    | _ =>
      let path := pathDirect.1
      if path = [] then
        rootGet d s
      else
        match listF d fuel s (dirOf path) with
        | .error e => .error e
        | .ok files =>
          match files.find? (fun f => f.GetName == baseOf path) with
          | some f => .ok f
          | none => .error .objectNotFound

/-- `(*Impl).list` (api.go lines 245-263). The `singleflight` group
(`listG.Do`) only coalesces concurrent callers; for a single sequential
caller it simply runs its function, which is how it is modelled here. -/
def listF (d : Driver σ) (fuel : Nat) (s : σ) (dir : Path) :
    Except Err (List Obj) :=
  match fuel with
  | 0 => .error .outOfFuel
  | fuel + 1 =>
    match getF d fuel s dir with
    | .error e => .error e
    | .ok dObj =>
      if !dObj.IsDir then .error .notFolder
      else
        match d.list s dObj with
        | .error e => .error e
        | .ok files => .ok (WrapObjsName files)

end

/-- The parent-list-and-scan fallback of `get` (api.go lines 194-209) as a
standalone function of the path it is applied to: list the parent directory
and return the first listed entry whose display name equals the base name
under case-sensitive string equality, `ObjectNotFound` when none matches.
`getF` at fuel `fuel + 1` runs exactly `fallbackF` at fuel `fuel` on its
(possibly rewritten) non-root path. -/
def fallbackF (d : Driver σ) (fuel : Nat) (s : σ) (path : Path) :
    Except Err Obj :=
  match listF d fuel s (dirOf path) with
  | .error e => .error e
  | .ok files =>
    match files.find? (fun f => f.GetName == baseOf path) with
    | some f => .ok f
    | none => .error .objectNotFound

/-- The `MakeDir` capability dispatch of `mkdir` (api.go lines 234-241):
the type switch prefers `driver.MkdirResult` (discarding its extra result)
over `driver.Mkdir`, returning `NotImplement` when the backend implements
neither. -/
def mkdirDispatch (d : Driver σ) (s : σ) (parent : Obj) (realDir : String) :
    Except Err σ :=
  match d.mkdirResult? with
  | some mk => (mk s parent realDir).map Prod.snd
  | none =>
    match d.mkdir? with
    | some mk => mk s parent realDir
    | none => .error .notImplement

/-- `(*Impl).mkdir` (api.go lines 214-243): resolve the parent; on
`ObjectNotFound` recursively materialize it and re-resolve; on any other
resolution failure propagate it; then dispatch `MakeDir` for the target's
base name via `mkdirDispatch`. Returns the updated backend state. -/
def mkdirF (d : Driver σ) (fuel : Nat) (s : σ) (dir : Path) : Except Err σ :=
  match fuel with
  | 0 => .error .outOfFuel
  | fuel + 1 =>
    let p := dirOf dir
    let realDir := baseOf dir
    let parentAndState : Except Err (Obj × σ) :=
      match getF d fuel s p with
      | .ok parent => .ok (parent, s)
      | .error e =>
        if IsObjectNotFound e then
          match mkdirF d fuel s p with
          | .error e2 => .error e2
          | .ok s2 =>
            match getF d fuel s2 p with
            | .error e3 => .error e3
            | .ok parent => .ok (parent, s2)
        else
          .error e
    match parentAndState with
    | .error e => .error e
    | .ok (parent, s2) => mkdirDispatch d s2 parent realDir

/-- The synthetic object and stream `Put` builds (api.go lines 109-119):
name is the base name of the prefixed path, size the byte length,
timestamps `time.Now()`, carrying the supplied bytes. -/
def putStream (name : Path) (data : List Nat) (now : Int) : FileStream :=
  { obj := { name := baseOf (joinPath baseDir name),
             size := (data.length : Int), modified := now, ctime := now }
    data := data }

/-- `(*Impl).Put` (api.go lines 100-140). `body` is already read into
`data` (`io.ReadAll`); `now` stands for `time.Now()`. Returns the updated
backend state. -/
def PutF (d : Driver σ) (fuel : Nat) (s : σ) (name : Path) (data : List Nat)
    (now : Int) : Except Err σ :=
  let fullName := joinPath baseDir name
  let dir := dirOf fullName
  let fs : FileStream := putStream name data now
  match mkdirF d fuel s dir with
  | .error e => .error e
  | .ok s2 =>
    match getF d fuel s2 dir with
    | .error e => .error e
    | .ok parentDir =>
      match d.putResult? with
      | some p => (p s2 parentDir fs).map Prod.snd
      | none =>
        match d.put? with
        | some p => p s2 parentDir fs
        | none => .error .notImplement

/-- `(*Impl).Read` (api.go lines 70-98). The seekable-stream collaborator is
modelled per the spec: the transfer link yields the object's bytes and the
range read returns the `[off, off+limit)` view. -/
def ReadF (d : Driver σ) (fuel : Nat) (s : σ) (name : Path)
    (off limit : Int) : Except Err (List Nat) :=
  match getF d fuel s (joinPath baseDir name) with
  | .error e => .error e
  | .ok file =>
    if file.IsDir then .error .notFile
    else
      match d.link s file with
      | .error e => .error e
      | .ok lk => .ok (rangeRead lk.data off limit)

/-- `(*Impl).Delete` (api.go lines 52-68): resolve the prefixed path;
`ObjectNotFound` is swallowed (success), any other resolution failure is
propagated; otherwise dispatch `driver.Remove` on the unwrapped descriptor,
`NotImplement` when the backend lacks it. Returns the (possibly updated)
backend state. -/
def DeleteF (d : Driver σ) (fuel : Nat) (s : σ) (name : Path) :
    Except Err σ :=
  match getF d fuel s (joinPath baseDir name) with
  | .error e => if IsObjectNotFound e then .ok s else .error e
  | .ok rawObj =>
    match d.remove? with
    | some rm => rm s (UnwrapObj rawObj)
    | none => .error .notImplement

/-- The core step of `New` (api.go lines 36-50): after backend
configuration and `Storage.Init` (collaborators outside this core), eagerly
materialize the namespace root directory via `mkdir(baseDir)`. -/
def NewF (d : Driver σ) (fuel : Nat) (s : σ) : Except Err σ :=
  mkdirF d fuel s baseDir

/-- A node of the reference in-memory backend: a directory, or a file with
its content. -/
inductive MemNode where
  | dir
  | file (content : List Nat)
deriving DecidableEq, Repr

/-- Reference in-memory backend state: an association list from full native
paths to nodes, first match wins. -/
abbrev MemState := List (Path × MemNode)

/-- Look up the node stored at native path `p`. -/
def memLookup (s : MemState) (p : Path) : Option MemNode :=
  match s.find? (fun e => e.1 == p) with
  | some e => some e.2
  | none => none

/-- The descriptor the in-memory backend reports for the entry at `p`. -/
def memObj (p : Path) (n : MemNode) : Obj :=
  .mk { path := p, name := baseOf p,
        size := (match n with | .dir => 0 | .file c => (c.length : Int)),
        isFolder := (match n with | .dir => true | .file _ => false) }

/-- Children of directory `p` in the in-memory backend: the stored entries
exactly one segment below `p`. -/
def memChildren (s : MemState) (p : Path) : List Obj :=
  s.filterMap (fun e =>
    if e.1 ≠ [] ∧ dirOf e.1 = p then some (memObj e.1 e.2) else none)

/-- The reference in-memory backend: declares its root by native path `/`
(`IRootPath`), implements `List`, `Link`, `Remove`, the plain `Put` and the
plain `Mkdir` variants, and no direct getter. -/
def memDriver : Driver MemState :=
  { get? := none
    getRoot? := none
    rootId? := none
    rootPath? := some []
    storageModified := 0
    list := fun s o =>
      match memLookup s o.GetPath with
      | some .dir => .ok (memChildren s o.GetPath)
      | _ => .error (.backend 1)
    link := fun s o =>
      match memLookup s o.GetPath with
      | some (.file c) => .ok ⟨c⟩
      | _ => .error (.backend 2)
    remove? := some (fun s o => .ok (s.filter (fun e => e.1 ≠ o.GetPath)))
    putResult? := none
    put? := some (fun s parent fs =>
      .ok ((joinPath parent.GetPath [fs.obj.name], .file fs.data) :: s))
    mkdirResult? := none
    mkdir? := some (fun s parent n =>
      .ok ((joinPath parent.GetPath [n], .dir) :: s)) }

/-- Backend state right after initialization: the native root `/` and the
namespace directory `/juicefs` exist. -/
def memInit : MemState := [([], .dir), (baseDir, .dir)]

/-- The parent-list-and-scan resolution exactly as the claim words it for a
path `p`: list the parent directory of `p` itself and scan for the first
entry whose display name equals the base name of `p` itself,
`ObjectNotFound` when none matches. Stated from the claim so it can be
compared with what `getF` actually runs after a failed direct get. -/
def claimFallbackOnArg (d : Driver σ) (fuel : Nat) (s : σ) (p : Path) :
    Except Err Obj :=
  fallbackF d fuel s p

/-- Termination of `mkdir` on a given backend, state and directory, phrased
over the fuelled embedding: some call depth suffices. -/
def MkdirTerminates (d : Driver σ) (s : σ) (dir : Path) : Prop :=
  ∃ fuel, mkdirF d fuel s dir ≠ .error .outOfFuel

/-- A direct getter that fails exactly on `/juicefs/juicefs/a` (the path
`get` actually queries for the input `/juicefs/a`) and answers every other
path with a directory descriptor for it. -/
def gC1 : Unit → Path → Except Err Obj := fun _ q =>
  if q = ["juicefs", "juicefs", "a"] then .error (.backend 0)
  else .ok (.mk { path := q, name := baseOf q, isFolder := true })

/-- A backend implementing the direct getter `gC1` whose listing of the
directory `/juicefs` contains exactly the file entry named `a`, and whose
listing of any other directory is empty. -/
def dC1 : Driver Unit :=
  { get? := some gC1
    getRoot? := none
    rootId? := none
    rootPath? := none
    storageModified := 0
    list := fun _ o =>
      if o.GetPath = ["juicefs"] then
        .ok [.mk { path := ["juicefs", "a"], name := "a" }]
      else .ok []
    link := fun _ _ => .error (.backend 2)
    remove? := none
    putResult? := none
    put? := none
    mkdirResult? := none
    mkdir? := none }

/-- A direct getter that succeeds exactly on `/juicefs` (so the namespace
root resolves) and fails everywhere else. -/
def gBad : Unit → Path → Except Err Obj := fun _ q =>
  if q = ["juicefs"] then
    .ok (.mk { path := ["juicefs"], name := "juicefs", isFolder := true })
  else .error (.backend 0)

/-- A backend implementing the direct getter `gBad`, with a trivially
succeeding `Mkdir` capability. -/
def dBad : Driver Unit :=
  { get? := some gBad
    getRoot? := none
    rootId? := none
    rootPath? := none
    storageModified := 0
    list := fun _ _ => .ok []
    link := fun _ _ => .error (.backend 2)
    remove? := none
    putResult? := none
    put? := none
    mkdirResult? := none
    mkdir? := some (fun s _ _ => .ok s) }

/-- The descriptor returned by `dRoot`'s explicit root getter. -/
def oRoot : Obj := .mk { path := [], name := "r", isFolder := true }

/-- A backend declaring both an explicit root getter and a root ID, for the
root-resolution priority test. -/
def dRoot : Driver Unit :=
  { get? := none
    getRoot? := some (fun _ => .ok (some oRoot))
    rootId? := some "rid"
    rootPath? := none
    storageModified := 0
    list := fun _ _ => .ok []
    link := fun _ _ => .error (.backend 2)
    remove? := none
    putResult? := none
    put? := none
    mkdirResult? := none
    mkdir? := none }

/-- The in-memory backend with both `Put` variants removed. -/
def dNoPut : Driver MemState :=
  { memDriver with put? := none, putResult? := none }

/-- The in-memory backend whose `Mkdir` capability rejects every create
(as a backend rejecting a duplicate create would). -/
def dDup : Driver MemState :=
  { memDriver with mkdir? := some (fun _ _ _ => .error (.backend 7)) }

/-- C5: a path that does not resolve (`ObjectNotFound`) makes `Delete`
succeed without error; a path that resolves makes `Delete` dispatch the
backend's `Remove` capability on the (unwrapped) resolved descriptor; any
non-`NotFound` resolution failure is propagated to the caller. -/
theorem c5_delete_semantics (d : Driver σ) (s : σ) (fuel : Nat) (p : Path) :
    (getF d fuel s (joinPath baseDir p) = .error .objectNotFound →
      DeleteF d fuel s p = .ok s) ∧
    (∀ e, getF d fuel s (joinPath baseDir p) = .error e →
      IsObjectNotFound e = false → DeleteF d fuel s p = .error e) ∧
    (∀ obj rm, getF d fuel s (joinPath baseDir p) = .ok obj →
      d.remove? = some rm → DeleteF d fuel s p = rm s (UnwrapObj obj)) := by
  refine ⟨?_, ?_, ?_⟩
  · intro h
    simp [DeleteF, h, IsObjectNotFound]
  · intro e h he
    simp [DeleteF, h, he]
  · intro obj rm h hr
    simp [DeleteF, h, hr]

/-- Witness for C5: in the initialized in-memory backend the path `nope`
does not resolve, and deleting it succeeds, leaving the state unchanged. -/
theorem c5_delete_semantics_witness :
    DeleteF memDriver 8 memInit ["nope"] = .ok memInit :=
  (c5_delete_semantics memDriver memInit 8 ["nope"]).1 (by decide)

/-- C7: a path resolving to a directory descriptor makes `Read` fail with
`NotFile` (for every backend, in particular whatever its `Link` does, so no
transfer link is consulted); a path resolving to a non-directory descriptor
makes `list` fail with `NotFolder` (again for every backend `List`, so no
backend list call is consulted). -/
theorem c7_type_mismatch (d : Driver σ) (s : σ) (fuel : Nat) :
    (∀ (name : Path) (off limit : Int) (file : Obj),
      getF d fuel s (joinPath baseDir name) = .ok file → file.IsDir = true →
      ReadF d fuel s name off limit = .error .notFile) ∧
    (∀ (dir : Path) (dObj : Obj),
      getF d fuel s dir = .ok dObj → dObj.IsDir = false →
      listF d (fuel + 1) s dir = .error .notFolder) := by
  constructor
  · intro name off limit file h hd
    simp [ReadF, h, hd]
  · intro dir dObj h hd
    simp [listF, h, hd]

/-- Witness for C7: reading the namespace directory `/juicefs` itself
(caller name `""`) fails with `NotFile`. -/
theorem c7_type_mismatch_witness :
    ReadF memDriver 6 memInit [] 0 0 = .error .notFile :=
  (c7_type_mismatch memDriver memInit 6).1 [] 0 0
    (.wrapName "juicefs"
      (.mk { path := ["juicefs"], name := "juicefs", isFolder := true }))
    (by decide) (by decide)

/-- C9 (implicit): when the backend implements the direct getter and the
argument is not `/juicefs`, `get` joins the namespace prefix on a second
time and invokes the getter on that re-prefixed path; on getter success the
wrapped result is returned, and on getter failure the re-prefixed path
replaces the argument for the rest of the resolution, so the fallback lists
the parent of the doubly-prefixed path. -/
theorem c9_double_join (d : Driver σ) (s : σ) (fuel : Nat) (p : Path)
    (g : σ → Path → Except Err Obj) (hg : d.get? = some g)
    (hp : p ≠ baseDir) :
    (∀ obj, g s (joinPath baseDir p) = .ok obj →
      getF d (fuel + 1) s p = .ok (WrapObjName obj)) ∧
    (∀ e, g s (joinPath baseDir p) = .error e →
      getF d (fuel + 1) s p = fallbackF d fuel s (joinPath baseDir p)) := by
  constructor
  · intro obj h
    simp only [getF, hg]
    rw [if_neg hp, h]
  · intro e h
    simp only [getF, hg]
    rw [if_neg hp, h]
    simp [fallbackF, joinPath, baseDir]

/-- Witness for C9: on the backend `dC1` (direct getter failing on the
doubly-prefixed `/juicefs/juicefs/a`), resolving `/juicefs/a` runs the
fallback on the doubly-prefixed path. -/
theorem c9_double_join_witness :
    getF dC1 12 () ["juicefs", "a"] =
      fallbackF dC1 11 () (joinPath baseDir ["juicefs", "a"]) :=
  (c9_double_join dC1 () 11 ["juicefs", "a"] gC1 rfl (by decide)).2
    (.backend 0) (by decide)

/-- C3: with no direct getter in the way, resolving the root path picks
exactly one strategy in priority order: an implemented explicit root getter
is used and its failure is fatal; else a declared root ID is wrapped into a
synthetic directory descriptor with the fixed display name, zero size and
the backend's own modification time; else a declared root path is wrapped
the same way; and with none of the three, resolution fails with the
configuration error. -/
theorem c3_root_resolution (d : Driver σ) (s : σ) (fuel : Nat)
    (hng : d.get? = none) :
    (∀ gr o, d.getRoot? = some gr → gr s = .ok (some o) →
      getF d (fuel + 1) s [] = .ok (.wrapName RootName o)) ∧
    (∀ gr e, d.getRoot? = some gr → gr s = .error e →
      getF d (fuel + 1) s [] = .error e) ∧
    (∀ rid, d.getRoot? = none → d.rootId? = some rid →
      getF d (fuel + 1) s [] = .ok (.wrapName RootName (.mk
        { id := rid, name := RootName, size := 0,
          modified := d.storageModified, isFolder := true }))) ∧
    (∀ rp, d.getRoot? = none → d.rootId? = none → d.rootPath? = some rp →
      getF d (fuel + 1) s [] = .ok (.wrapName RootName (.mk
        { path := rp, name := RootName, size := 0,
          modified := d.storageModified, isFolder := true }))) ∧
    (d.getRoot? = none → d.rootId? = none → d.rootPath? = none →
      getF d (fuel + 1) s [] = .error .rootConfig) := by
  have hre : getF d (fuel + 1) s [] = rootGet d s := by
    simp [getF, hng]
  refine ⟨?_, ?_, ?_, ?_, ?_⟩
  · intro gr o h1 h2
    rw [hre]; simp [rootGet, h1, h2]
  · intro gr e h1 h2
    rw [hre]; simp [rootGet, h1, h2]
  · intro rid h1 h2
    rw [hre]; simp [rootGet, h1, h2]
  · intro rp h1 h2 h3
    rw [hre]; simp [rootGet, h1, h2, h3]
  · intro h1 h2 h3
    rw [hre]; simp [rootGet, h1, h2, h3]

/-- Witness for C3: on a backend declaring both an explicit root getter and
a root ID, the explicit getter's result is used (priority order). -/
theorem c3_root_resolution_witness :
    getF dRoot 5 () [] = .ok (.wrapName RootName oRoot) :=
  (c3_root_resolution dRoot () 4 rfl).1 _ oRoot rfl rfl

/-- C6: for both `Put` and `Mkdir` the dispatcher prefers the
result-returning capability variant, falls back to the plain variant, and
fails with `NotImplement` exactly when the backend implements neither; in
particular a backend lacking both `Put` variants makes the write fail with
`NotImplement` (after the directory chain was materialized and the parent
resolved). -/
theorem c6_variant_dispatch (d : Driver σ) (s : σ) (fuel : Nat)
    (name : Path) (data : List Nat) (now : Int) :
    (∀ s2 parent,
      mkdirF d fuel s (dirOf (joinPath baseDir name)) = .ok s2 →
      getF d fuel s2 (dirOf (joinPath baseDir name)) = .ok parent →
      (∀ f, d.putResult? = some f →
        PutF d fuel s name data now =
          (f s2 parent (putStream name data now)).map Prod.snd) ∧
      (∀ f, d.putResult? = none → d.put? = some f →
        PutF d fuel s name data now =
          f s2 parent (putStream name data now)) ∧
      (d.putResult? = none → d.put? = none →
        PutF d fuel s name data now = .error .notImplement)) ∧
    (∀ dir parent, getF d fuel s (dirOf dir) = .ok parent →
      (∀ f, d.mkdirResult? = some f →
        mkdirF d (fuel + 1) s dir = (f s parent (baseOf dir)).map Prod.snd) ∧
      (∀ f, d.mkdirResult? = none → d.mkdir? = some f →
        mkdirF d (fuel + 1) s dir = f s parent (baseOf dir)) ∧
      (d.mkdirResult? = none → d.mkdir? = none →
        mkdirF d (fuel + 1) s dir = .error .notImplement)) := by
  constructor
  · intro s2 parent hmk hget
    refine ⟨?_, ?_, ?_⟩
    · intro f hf
      simp [PutF, hmk, hget, hf]
    · intro f hf1 hf2
      simp [PutF, hmk, hget, hf1, hf2]
    · intro hf1 hf2
      simp [PutF, hmk, hget, hf1, hf2]
  · intro dir parent hget
    refine ⟨?_, ?_, ?_⟩
    · intro f hf
      simp [mkdirF, mkdirDispatch, hget, hf]
    · intro f hf1 hf2
      simp [mkdirF, mkdirDispatch, hget, hf1, hf2]
    · intro hf1 hf2
      simp [mkdirF, mkdirDispatch, hget, hf1, hf2]

/-- Witness for C6: on the in-memory backend with both `Put` variants
removed, a write fails with `NotImplement`. -/
theorem c6_variant_dispatch_witness :
    PutF dNoPut 10 memInit ["f"] [1] 0 = .error .notImplement :=
  ((c6_variant_dispatch dNoPut memInit 10 ["f"] [1] 0).1
    ((["juicefs"], .dir) :: memInit)
    (.wrapName "juicefs"
      (.mk { path := ["juicefs"], name := "juicefs", isFolder := true }))
    (by decide) (by decide)).2.2 rfl rfl

/-- C10 (implicit): `mkdir` never checks whether its target already exists:
once the parent resolves it unconditionally dispatches `MakeDir` for the
target's base name; a `mkdir` failure (including a backend's rejection of a
duplicate create and `NotImplement` when both `Mkdir` variants are missing)
fails the enclosing `Put`; and `New`'s initialization is exactly
`mkdir(baseDir)`, so it fails the same way. -/
theorem c10_unconditional_makedir (d : Driver σ) (s : σ) (fuel : Nat)
    (name : Path) (data : List Nat) (now : Int) :
    (∀ dir parent, getF d fuel s (dirOf dir) = .ok parent →
      mkdirF d (fuel + 1) s dir = mkdirDispatch d s parent (baseOf dir)) ∧
    (∀ e, mkdirF d fuel s (dirOf (joinPath baseDir name)) = .error e →
      PutF d fuel s name data now = .error e) ∧
    NewF d fuel s = mkdirF d fuel s baseDir := by
  refine ⟨?_, ?_, rfl⟩
  · intro dir parent h
    simp [mkdirF, h]
  · intro e h
    simp [PutF, h]

/-- Witness for C10: on the in-memory backend whose `MakeDir` rejects every
create, writing `/f` fails with that backend error even though the parent
directory `/juicefs` already exists. -/
theorem c10_unconditional_makedir_witness :
    PutF dDup 10 memInit ["f"] [1] 0 = .error (.backend 7) :=
  (c10_unconditional_makedir dDup memInit 10 ["f"] [1] 0).2.1
    (.backend 7) (by decide)

/-- C1 (amended): when the backend lacks the direct getter, `get` on a
non-root path is exactly the parent-list-and-scan fallback applied to that
path; when the backend implements the direct getter and the (re-prefixed)
direct lookup fails, the error is not propagated and `get` is the fallback
applied to the re-prefixed path `join(baseDir, p)` (`p` itself when `p`
equals `baseDir`) — not to `p`. -/
theorem c1_locator_fallback (d : Driver σ) (s : σ) (fuel : Nat) :
    (d.get? = none → ∀ p : Path, p ≠ [] →
      getF d (fuel + 1) s p = claimFallbackOnArg d fuel s p) ∧
    (∀ (g : σ → Path → Except Err Obj) (p : Path) (e : Err),
      d.get? = some g →
      g s (if p = baseDir then p else joinPath baseDir p) = .error e →
      getF d (fuel + 1) s p =
        claimFallbackOnArg d fuel s
          (if p = baseDir then p else joinPath baseDir p)) := by
  constructor
  · intro hng p hp
    simp [getF, hng, hp, claimFallbackOnArg, fallbackF]
  · intro g p e hg hge
    by_cases hp : p = baseDir
    · subst hp
      rw [if_pos rfl] at hge
      rw [if_pos rfl]
      have hge2 : g s ["juicefs"] = .error e := hge
      simp [getF, hg, hge2, claimFallbackOnArg, fallbackF, baseDir]
    · rw [if_neg hp] at hge
      rw [if_neg hp]
      simp only [getF, hg]
      rw [if_neg hp, hge]
      simp [claimFallbackOnArg, fallbackF, joinPath, baseDir]

/-- Counterexample for C1 as stated: on the backend `dC1`, whose listing of
the parent of `p = /juicefs/a` contains an entry displayed `a`, `get(p)`
after the failed direct lookup returns `ObjectNotFound`, while the claim's
fallback — splitting `p` itself and scanning its parent's listing — finds
that entry. -/
theorem c1_counterexample :
    getF dC1 12 () ["juicefs", "a"] = .error .objectNotFound ∧
    claimFallbackOnArg dC1 11 () ["juicefs", "a"] =
      .ok (.wrapName "a" (.mk { path := ["juicefs", "a"], name := "a" })) := by
  decide

/-- Witness for C1 (amended): on the getter-less in-memory backend, `get` on
`/juicefs` is the fallback on `/juicefs` itself. -/
theorem c1_locator_fallback_witness :
    getF memDriver 7 memInit ["juicefs"] =
      claimFallbackOnArg memDriver 6 memInit ["juicefs"] :=
  (c1_locator_fallback memDriver memInit 6).1 rfl ["juicefs"] (by decide)

/-- On the backend `dBad` the resolution of `/juicefs/juicefs` self-loops:
the getter rewrites it to `/juicefs/juicefs/juicefs`, the direct lookup
fails, and the fallback lists `/juicefs/juicefs` again, so every call depth
is exhausted. -/
theorem dBad_getter : dBad.get? = some gBad := rfl

theorem dBad_loop (n : Nat) :
    getF dBad n () ["juicefs", "juicefs"] = .error .outOfFuel ∧
    listF dBad n () ["juicefs", "juicefs"] = .error .outOfFuel := by
  induction n with
  | zero => exact ⟨rfl, rfl⟩
  | succ n ih =>
    constructor
    · simp [getF, dBad_getter, gBad, joinPath, baseDir, dirOf, ih.2]
    · simp [listF, ih.1]

/-- On `dBad`, resolving `/juicefs/x` exhausts every call depth: its direct
lookup (at `/juicefs/juicefs/x`) fails and the fallback lists the parent
`/juicefs/juicefs`, which self-loops. -/
theorem dBad_get_loop (n : Nat) :
    getF dBad n () ["juicefs", "x"] = .error .outOfFuel := by
  cases n with
  | zero => rfl
  | succ n =>
    simp [getF, dBad_getter, gBad, joinPath, baseDir, dirOf, (dBad_loop n).2]

/-- On `dBad`, `mkdir /juicefs/x/y` exhausts every call depth: the parent
resolution of `/juicefs/x` never returns. -/
theorem dBad_mkdir_loop (n : Nat) :
    mkdirF dBad n () ["juicefs", "x", "y"] = .error .outOfFuel := by
  cases n with
  | zero => rfl
  | succ n => simp [mkdirF, dirOf, dBad_get_loop n, IsObjectNotFound]

/-- Counterexample for C4 as stated: on the backend `dBad` the namespace
root resolves successfully and the chain of missing ancestors of
`/juicefs/x/y` is finite, yet `mkdir /juicefs/x/y` does not terminate at
any call depth. -/
theorem c4_counterexample :
    (∃ o, getF dBad 2 () [] = .ok o) ∧
    ¬ MkdirTerminates dBad () ["juicefs", "x", "y"] := by
  constructor
  · exact ⟨.wrapName "juicefs"
      (.mk { path := ["juicefs"], name := "juicefs", isFolder := true }),
      by decide⟩
  · rintro ⟨fuel, hf⟩
    exact hf (dBad_mkdir_loop fuel)

/-- With no direct getter, resolving the root path succeeds whenever the
root resolver does, at any positive call depth. -/
theorem getF_root_ok (d : Driver σ) (hng : d.get? = none)
    (hroot : ∀ st : σ, ∃ o, rootGet d st = .ok o) (st : σ) (m : Nat) :
    ∃ o, getF d (m + 1) st ([] : Path) = .ok o := by
  obtain ⟨o, ho⟩ := hroot st
  exact ⟨o, by simp [getF, hng, ho]⟩

/-- One step of `listF` cannot exhaust the call depth if the inner `getF`
does not and the backend's `List` never reports the fuel marker. -/
theorem listF_step_ne_oof (d : Driver σ)
    (hlist : ∀ (st : σ) (o : Obj), d.list st o ≠ .error .outOfFuel)
    (st : σ) (p : Path) (m : Nat)
    (hget : getF d m st p ≠ .error .outOfFuel) :
    listF d (m + 1) st p ≠ .error .outOfFuel := by
  simp only [listF]
  cases hg : getF d m st p with
  | error e =>
    have he : e ≠ .outOfFuel := fun h => hget (h ▸ hg)
    simpa using he
  | ok dObj =>
    cases hd : dObj.IsDir with
    | false => simp [hd]
    | true =>
      simp only [hd, Bool.not_true, Bool.false_eq_true, if_false]
      cases hl : d.list st dObj with
      | error e =>
        have he : e ≠ .outOfFuel := fun h => hlist st dObj (h ▸ hl)
        simpa using he
      | ok files => simp

/-- One step of `getF` on a non-root path (with no direct getter) cannot
exhaust the call depth if the parent listing does not. -/
theorem getF_fallback_ne_oof (d : Driver σ) (hng : d.get? = none)
    (st : σ) (p : Path) (hpe : p ≠ []) (m : Nat)
    (hlst : listF d m st (dirOf p) ≠ .error .outOfFuel) :
    getF d (m + 1) st p ≠ .error .outOfFuel := by
  simp only [getF, hng]
  cases hl : listF d m st (dirOf p) with
  | error e =>
    have he : e ≠ .outOfFuel := fun h => hlst (h ▸ hl)
    simp [hpe, hl]
    exact he
  | ok files =>
    simp [hpe, hl]
    cases files.find? (fun f => f.GetName == baseOf p) <;> simp

/-- With no direct getter, a root resolver that succeeds in every state and
a backend `List` that never reports the fuel marker, `getF` terminates
within `2k + 1` and `listF` within `2k + 2` steps of call depth for paths
of length at most `k`. -/
theorem getF_listF_term (d : Driver σ) (hng : d.get? = none)
    (hroot : ∀ st : σ, ∃ o, rootGet d st = .ok o)
    (hlist : ∀ (st : σ) (o : Obj), d.list st o ≠ .error .outOfFuel) :
    ∀ (k : Nat) (p : Path), p.length ≤ k → ∀ st : σ,
      (∀ n, 2 * k + 1 ≤ n → getF d n st p ≠ .error .outOfFuel) ∧
      (∀ n, 2 * k + 2 ≤ n → listF d n st p ≠ .error .outOfFuel) := by
  intro k
  induction k with
  | zero =>
    intro p hp st
    have hpe : p = [] := by
      cases p with
      | nil => rfl
      | cons a t => simp at hp
    subst hpe
    have hget : ∀ n, 1 ≤ n → getF d n st ([] : Path) ≠ .error .outOfFuel := by
      intro n hn
      obtain ⟨m, rfl⟩ : ∃ m, n = m + 1 := ⟨n - 1, by omega⟩
      obtain ⟨o, ho⟩ := getF_root_ok d hng hroot st m
      simp [ho]
    refine ⟨fun n hn => hget n (by omega), fun n hn => ?_⟩
    obtain ⟨m, rfl⟩ : ∃ m, n = m + 1 := ⟨n - 1, by omega⟩
    exact listF_step_ne_oof d hlist st [] m (hget m (by omega))
  | succ k ih =>
    intro p hp st
    have hget : ∀ n, 2 * (k + 1) + 1 ≤ n →
        getF d n st p ≠ .error .outOfFuel := by
      intro n hn
      obtain ⟨m, rfl⟩ : ∃ m, n = m + 1 := ⟨n - 1, by omega⟩
      by_cases hpe : p = []
      · subst hpe
        obtain ⟨o, ho⟩ := getF_root_ok d hng hroot st m
        simp [ho]
      · have hdl : (dirOf p).length ≤ k := by
          simp only [dirOf, List.length_dropLast]
          have hp1 : 1 ≤ p.length := by
            cases p with
            | nil => exact absurd rfl hpe
            | cons a t => simp
          omega
        exact getF_fallback_ne_oof d hng st p hpe m
          ((ih (dirOf p) hdl st).2 m (by omega))
    refine ⟨hget, fun n hn => ?_⟩
    obtain ⟨m, rfl⟩ : ∃ m, n = m + 1 := ⟨n - 1, by omega⟩
    exact listF_step_ne_oof d hlist st p m (hget m (by omega))

/-- With no direct getter, a root resolver succeeding in every state, a
backend `List` never reporting the fuel marker, and a `MakeDir` dispatch
never reporting it either, `mkdir` terminates within `2k + 4` steps of call
depth for directories of length at most `k`. -/
theorem mkdirF_term (d : Driver σ) (hng : d.get? = none)
    (hroot : ∀ st : σ, ∃ o, rootGet d st = .ok o)
    (hlist : ∀ (st : σ) (o : Obj), d.list st o ≠ .error .outOfFuel)
    (hmk : ∀ (st : σ) (parent : Obj) (nm : String),
      mkdirDispatch d st parent nm ≠ .error .outOfFuel) :
    ∀ (k : Nat) (dir : Path), dir.length ≤ k → ∀ (st : σ) (n : Nat),
      2 * k + 4 ≤ n → mkdirF d n st dir ≠ .error .outOfFuel := by
  intro k
  induction k with
  | zero =>
    intro dir hd st n hn
    have hde : dir = [] := by
      cases dir with
      | nil => rfl
      | cons a t => simp at hd
    subst hde
    obtain ⟨m, rfl⟩ : ∃ m, n = m + 1 := ⟨n - 1, by omega⟩
    obtain ⟨m2, rfl⟩ : ∃ m2, m = m2 + 1 := ⟨m - 1, by omega⟩
    obtain ⟨o, ho⟩ := getF_root_ok d hng hroot st m2
    have hoo : getF d (m2 + 1) st (dirOf ([] : Path)) = .ok o := ho
    simp only [mkdirF, hoo]
    exact hmk st o (baseOf [])
  | succ k ih =>
    intro dir hd st n hn
    obtain ⟨m, rfl⟩ : ∃ m, n = m + 1 := ⟨n - 1, by omega⟩
    have hdl : (dirOf dir).length ≤ k := by
      simp only [dirOf, List.length_dropLast]
      omega
    simp only [mkdirF]
    cases hg : getF d m st (dirOf dir) with
    | ok parent =>
      simp only []
      exact hmk st parent (baseOf dir)
    | error e =>
      have he : e ≠ .outOfFuel := fun h =>
        ((getF_listF_term d hng hroot hlist k (dirOf dir) hdl st).1 m
          (by omega)) (h ▸ hg)
      by_cases hno : IsObjectNotFound e = true
      · simp only [hno, if_true]
        cases hm : mkdirF d m st (dirOf dir) with
        | error e2 =>
          have he2 : e2 ≠ .outOfFuel := fun h =>
            (ih (dirOf dir) hdl st m (by omega)) (h ▸ hm)
          simpa using he2
        | ok s2 =>
          cases hg2 : getF d m s2 (dirOf dir) with
          | error e3 =>
            have he3 : e3 ≠ .outOfFuel := fun h =>
              ((getF_listF_term d hng hroot hlist k (dirOf dir) hdl
                s2).1 m (by omega)) (h ▸ hg2)
            simpa [hg2] using he3
          | ok parent =>
            simpa [hg2] using hmk s2 parent (baseOf dir)
      · simp only [hno, if_false]
        simpa using he

/-- C4 (amended): for every directory path (its chain of missing ancestors
is finite since paths are), provided the backend implements no direct
getter (with one, a failing direct lookup makes parent resolution recurse
forever, see the counterexample) and the namespace root always resolves
successfully, `mkdir` terminates — within call depth linear in the path
length, each recursive step dropping one trailing segment; recursion
happens only when parent resolution fails with `ObjectNotFound`, and any
other parent-resolution failure propagates immediately without recursion. -/
theorem c4_mkdir_termination (d : Driver σ) (hng : d.get? = none)
    (hroot : ∀ st : σ, ∃ o, rootGet d st = .ok o)
    (hlist : ∀ (st : σ) (o : Obj), d.list st o ≠ .error .outOfFuel)
    (hmk : ∀ (st : σ) (parent : Obj) (nm : String),
      mkdirDispatch d st parent nm ≠ .error .outOfFuel) :
    (∀ (dir : Path) (st : σ) (n : Nat), 2 * dir.length + 4 ≤ n →
      mkdirF d n st dir ≠ .error .outOfFuel) ∧
    (∀ (dir : Path) (st : σ), MkdirTerminates d st dir) ∧
    (∀ (dir : Path) (st : σ) (fuel : Nat) (parent : Obj),
      getF d fuel st (dirOf dir) = .ok parent →
      mkdirF d (fuel + 1) st dir = mkdirDispatch d st parent (baseOf dir)) ∧
    (∀ (dir : Path) (st : σ) (fuel : Nat) (e : Err),
      getF d fuel st (dirOf dir) = .error e → IsObjectNotFound e = false →
      mkdirF d (fuel + 1) st dir = .error e) := by
  refine ⟨fun dir st n hn =>
      mkdirF_term d hng hroot hlist hmk dir.length dir le_rfl st n hn,
    fun dir st => ⟨2 * dir.length + 4,
      mkdirF_term d hng hroot hlist hmk dir.length dir le_rfl st _ le_rfl⟩,
    ?_, ?_⟩
  · intro dir st fuel parent h
    simp [mkdirF, h]
  · intro dir st fuel e h he
    simp [mkdirF, h, he]

/-- Witness for C4 (amended): on the getter-less in-memory backend, whose
root always resolves, `mkdir /juicefs/x` terminates. -/
theorem c4_mkdir_termination_witness :
    MkdirTerminates memDriver memInit ["juicefs", "x"] :=
  (c4_mkdir_termination memDriver rfl
    (fun st => ⟨.wrapName RootName
      (.mk { path := [], name := RootName, isFolder := true }), rfl⟩)
    (fun st o => by
      simp only [memDriver]
      cases memLookup st o.GetPath with
      | none => simp
      | some nd => cases nd <;> simp)
    (fun st parent nm => by
      simp [mkdirDispatch, memDriver])).2.1 ["juicefs", "x"] memInit

/-- C2: writing `/x/y/z` into the freshly initialized adapter over the
reference in-memory backend succeeds, reading `/x/y/z` back returns exactly
the written bytes, and the intermediate directories `/juicefs/x` and
`/juicefs/x/y` exist in the backend afterwards — for every segment names
`x`, `y`, `z` and every content. -/
theorem c2_write_read_roundtrip (x y z : String) (data : List Nat)
    (now : Int) :
    ∃ s1, PutF memDriver 15 memInit [x, y, z] data now = .ok s1 ∧
      ReadF memDriver 15 s1 [x, y, z] 0 (data.length : Int) = .ok data ∧
      memLookup s1 ["juicefs", x] = some .dir ∧
      memLookup s1 ["juicefs", x, y] = some .dir := by
  refine ⟨[(["juicefs", x, y, z], .file data), (["juicefs", x, y], .dir),
    (["juicefs", x], .dir), ([], .dir), (["juicefs"], .dir)],
    ?_, ?_, ?_, ?_⟩
  · simp [PutF, putStream, mkdirF, getF, listF, rootGet, mkdirDispatch,
      memDriver, memInit, memLookup, memChildren, memObj, joinPath, dirOf,
      baseOf, baseDir, RootName, WrapObjName, WrapObjsName, Obj.GetName,
      Obj.GetPath, Obj.IsDir, IsObjectNotFound]
  · simp [ReadF, getF, listF, rootGet, memDriver, memLookup, memChildren,
      memObj, joinPath, dirOf, baseOf, baseDir, RootName, WrapObjName,
      WrapObjsName, Obj.GetName, Obj.GetPath, Obj.IsDir, rangeRead]
  · simp [memLookup]
  · simp [memLookup]

end Export
